import Mathlib

/-!
# Open-scrim acceptance protocol — shallow embedding

This file embeds the scrim-acceptance path of the scrim-scheduling app:
the `scrims` table rows, the single conditional UPDATE issued by the two
accept call sites (`acceptOpenScrim` in the Scrim Center screen and
`doAcceptOpen` in the Scrim Details screen), the slot-creation payload of
the Create Scrim screen, and the UI gating predicates (`filteredOpen`,
`canAcceptOpen`).  The store is a list of rows; an UPDATE maps each row
through its WHERE clause; `.select('id').maybeSingle()` is the projection
of the affected rows to their ids, returning `none` on zero rows.
-/

namespace ScrimApp

/-- A row of the `scrims` table, restricted to the columns the acceptance
path reads or writes (plus a few immutable columns used to state frame
conditions).  Identifiers are opaque strings (uuids), timestamps are ISO
strings, `status` is a string (`"open"`, `"confirmed"`, `"cancelled"`,
`"pending"`). -/
structure ScrimSlot where
  id : String
  host_team_id : String
  opponent_team_id : Option String
  status : String
  start_time : String
  end_time : String
  time_zone : String
  region : String
  notes : Option String
  updated_at : String
  deriving DecidableEq, Repr

/-- The WHERE clause of the conditional update issued by both accept call
sites: `.eq('id', scrimId).eq('status', 'open').is('opponent_team_id', null)`. -/
def acceptMatches (scrimId : String) (r : ScrimSlot) : Bool :=
  r.id == scrimId && r.status == "open" && r.opponent_team_id == none

/-- The SET clause of the conditional update:
`{ status: 'confirmed', opponent_team_id: myTeamId, updated_at: now }`. -/
def acceptApply (myTeamId now : String) (r : ScrimSlot) : ScrimSlot :=
  { r with status := "confirmed", opponent_team_id := some myTeamId,
           updated_at := now }

/-- Effect of the conditional UPDATE on the whole `scrims` table: each row
satisfying the WHERE clause is rewritten by the SET clause, every other
row is untouched. -/
def acceptUpdateTable (scrims : List ScrimSlot) (scrimId myTeamId now : String) :
    List ScrimSlot :=
  scrims.map fun r =>
    if acceptMatches scrimId r then acceptApply myTeamId now r else r

/-- The rows affected by the conditional UPDATE, i.e. what the trailing
`.select('id')` ranges over. -/
def acceptUpdatedRows (scrims : List ScrimSlot) (scrimId myTeamId now : String) :
    List ScrimSlot :=
  (scrims.filter (acceptMatches scrimId)).map (acceptApply myTeamId now)

/-- `.select('id').maybeSingle()` applied to the affected rows: `none` when
zero rows were affected, the single affected row's `id` when exactly one
was, an error (thrown by the client library) when several were. -/
def maybeSingleId (rows : List ScrimSlot) : Except String (Option String) :=
  match rows with
  | [] => Except.ok none
  | [r] => Except.ok (some r.id)
  | _ :: _ :: _ => Except.error "multiple rows returned"

/-- Outcome of one accept call as observed by the caller:
`noTeam` is the early return before any store call, `success i` is the
`updated?.id` path, `alreadyTaken` is the `!updated?.id` path (the
"Already taken" message), `storeError` is the `catch` branch. -/
inductive AcceptOutcome where
  | noTeam
  | success (id : String)
  | alreadyTaken
  | storeError
  deriving DecidableEq, Repr

def isSuccess : AcceptOutcome → Bool
  | AcceptOutcome.success _ => true
  | _ => false

/-- The shared body of both accept call sites (the query chain is duplicated
verbatim in the two screens): issue the single conditional UPDATE and map
its `maybeSingle` result to an outcome.  `fault` models the store call
itself failing (network/timeout) before any write reaches the table. -/
def acceptCore (fault : Bool) (scrims : List ScrimSlot)
    (myTeamId scrimId now : String) : List ScrimSlot × AcceptOutcome :=
  if fault then (scrims, AcceptOutcome.storeError)
  else
    match maybeSingleId (acceptUpdatedRows scrims scrimId myTeamId now) with
    | Except.error _ =>
        (acceptUpdateTable scrims scrimId myTeamId now, AcceptOutcome.storeError)
    | Except.ok none =>
        (acceptUpdateTable scrims scrimId myTeamId now, AcceptOutcome.alreadyTaken)
    | Except.ok (some i) =>
        (acceptUpdateTable scrims scrimId myTeamId now, AcceptOutcome.success i)

/-- `acceptOpenScrim(scrimId)` from the Scrim Center screen: early return
with an error message when the caller has no primary team, otherwise the
conditional UPDATE. -/
def acceptOpenScrim (fault : Bool) (scrims : List ScrimSlot)
    (myTeamId : Option String) (scrimId now : String) :
    List ScrimSlot × AcceptOutcome :=
  match myTeamId with
  | none => (scrims, AcceptOutcome.noTeam)
  | some teamId => acceptCore fault scrims teamId scrimId now

/-- `doAcceptOpen` from the Scrim Details screen: early return when either
the route's scrim id or the caller's team id is absent, otherwise the same
conditional UPDATE. -/
def doAcceptOpen (fault : Bool) (scrims : List ScrimSlot)
    (scrimId myTeamId : Option String) (now : String) :
    List ScrimSlot × AcceptOutcome :=
  match scrimId, myTeamId with
  | some sid, some teamId => acceptCore fault scrims teamId sid now
  | _, _ => (scrims, AcceptOutcome.noTeam)

/-- The insert payload built by `submit` in the Create Scrim screen; `rowId`
stands for the id the store assigns at insert and `createdAt` for the
timestamp default of `updated_at`.  Note `opponent_team_id` is
`invitedTeam?.id ?? null` while `status` is always `'open'`. -/
def createScrimPayload (rowId primaryTeamId : String)
    (invitedTeamId : Option String) (region startISO endISO timeZone : String)
    (notes : Option String) (createdAt : String) : ScrimSlot :=
  { id := rowId
    host_team_id := primaryTeamId
    opponent_team_id := invitedTeamId
    status := "open"
    start_time := startISO
    end_time := endISO
    time_zone := timeZone
    region := region
    notes := notes
    updated_at := createdAt }

/-- `filteredOpen` from the Scrim Center screen: hide the viewer's own
slots and slots that are open but already carry an opponent. -/
def filteredOpen (openData : List ScrimSlot) (teamId : Option String) :
    List ScrimSlot :=
  openData.filter fun s =>
    if (match teamId with
        | some t => s.host_team_id == t
        | none => false) then false
    else if s.opponent_team_id.isSome then false
    else true

/-- `(scrim?.status ?? '').toLowerCase()` from the Scrim Details screen. -/
def scrimStatusOf (scrim : Option ScrimSlot) : String :=
  ((scrim.map ScrimSlot.status).getD "").toLower

/-- `isHostTeam` from the Scrim Details screen. -/
def isHostTeam (scrim : Option ScrimSlot) (myTeamId : Option String) : Bool :=
  match scrim, myTeamId with
  | some s, some t => s.host_team_id == t
  | _, _ => false

/-- `isTakenByOtherTeam` from the Scrim Details screen. -/
def isTakenByOtherTeam (scrim : Option ScrimSlot) (myTeamId : Option String) :
    Bool :=
  match scrim, myTeamId with
  | some s, some t =>
    if scrimStatusOf (some s) != "open" then false
    else
      match s.opponent_team_id with
      | none => false
      | some o => o != t
  | _, _ => false

/-- `canAcceptOpen` from the Scrim Details screen: the UI predicate gating
the accept button. -/
def canAcceptOpen (scrim : Option ScrimSlot) (myTeamId : Option String) : Bool :=
  match scrim with
  | none => false
  | some s =>
    match myTeamId with
    | none => false
    | some t =>
      if isHostTeam (some s) (some t) then false
      else if scrimStatusOf (some s) != "open" then false
      else if isTakenByOtherTeam (some s) (some t) then false
      else s.opponent_team_id == none

/-- N accept attempts serialized by the store: each call's conditional
update runs against the table state left by the previous call. -/
def runAccepts (scrimId now : String) :
    List ScrimSlot → List String → List ScrimSlot × List AcceptOutcome
  | scrims, [] => (scrims, [])
  | scrims, t :: ts =>
    let first := acceptOpenScrim false scrims (some t) scrimId now
    let rest := runAccepts scrimId now first.1 ts
    (rest.1, first.2 :: rest.2)

/-- The arguments of one accept call, for reasoning about arbitrary later
traffic on the store. -/
structure AcceptCall where
  fault : Bool
  myTeamId : Option String
  scrimId : String
  now : String
  deriving Repr

/-- Run a sequence of accept calls with arbitrary arguments against the
store. -/
def runCalls : List AcceptCall → List ScrimSlot → List ScrimSlot
  | [], scrims => scrims
  | c :: cs, scrims =>
    runCalls cs (acceptOpenScrim c.fault scrims c.myTeamId c.scrimId c.now).1

/-- The mutual-consistency condition of spec invariant I1: never
`confirmed` with a null opponent, never `open` with a non-null opponent. -/
def consistent (r : ScrimSlot) : Bool :=
  !(r.status == "confirmed" && r.opponent_team_id == none) &&
  !(r.status == "open" && r.opponent_team_id != none)

/-- Number of rows the update actually rewrote, comparing the table before
and after positionally. -/
def changedRows (old new : List ScrimSlot) : Nat :=
  ((old.zip new).filter fun p => p.1 != p.2).length

/-- After a successful accept, the winner's claim on the slot: no row of
the table satisfies the conditional predicate for that slot any more, and
every row carrying the slot's id is confirmed with the winner as its
opponent. -/
def claimedBy (scrimId winner : String) (scrims : List ScrimSlot) : Prop :=
  (∀ r ∈ scrims, acceptMatches scrimId r = false) ∧
  ∀ r ∈ scrims, r.id = scrimId →
    r.status = "confirmed" ∧ r.opponent_team_id = some winner

/-- A concrete open, unclaimed slot used to evaluate the operations. -/
def sampleSlot : ScrimSlot :=
  { id := "s1"
    host_team_id := "teamA"
    opponent_team_id := none
    status := "open"
    start_time := "2026-01-01T10:00:00Z"
    end_time := "2026-01-01T11:00:00Z"
    time_zone := "UTC"
    region := "eu"
    notes := none
    updated_at := "2026-01-01T00:00:00Z" }

/-- `sampleSlot` after having been claimed by team B. -/
def claimedSlot : ScrimSlot :=
  { sampleSlot with status := "confirmed", opponent_team_id := some "teamB" }

/-- `sampleSlot` hosted by team C instead of team A. -/
def sampleSlotHostC : ScrimSlot :=
  { sampleSlot with host_team_id := "teamC" }

/-- The row the conditional update produces when team B claims
`sampleSlot` at time `"t1"`. -/
def wonSlot : ScrimSlot :=
  { sampleSlot with status := "confirmed", opponent_team_id := some "teamB",
                    updated_at := "t1" }

/-- Modelled from the spec: `acceptOpenSlot` as section 6 describes its
success result — the same conditional update, but returning the full
post-update ScrimSlot row rather than a projection of it.  Used only to
compare the code's return value against the spec's. -/
def acceptOpenSlotSpecRow (scrims : List ScrimSlot)
    (claimingTeamId scrimId now : String) :
    List ScrimSlot × Option ScrimSlot :=
  match (scrims.filter (acceptMatches scrimId)).map
      (acceptApply claimingTeamId now) with
  | [r] => (acceptUpdateTable scrims scrimId claimingTeamId now, some r)
  | _ => (acceptUpdateTable scrims scrimId claimingTeamId now, none)

/-! ## Basic lemmas about the conditional update -/

theorem acceptMatches_iff (scrimId : String) (r : ScrimSlot) :
    acceptMatches scrimId r = true ↔
      r.id = scrimId ∧ r.status = "open" ∧ r.opponent_team_id = none := by
  simp [acceptMatches, Bool.and_eq_true, and_assoc]

theorem acceptMatches_acceptApply (scrimId myTeamId now : String) (r : ScrimSlot) :
    acceptMatches scrimId (acceptApply myTeamId now r) = false := by
  simp [acceptMatches, acceptApply]

theorem acceptUpdateTable_no_match (scrims : List ScrimSlot)
    (scrimId myTeamId now : String)
    (h : ∀ r ∈ scrims, acceptMatches scrimId r = false) :
    acceptUpdateTable scrims scrimId myTeamId now = scrims := by
  induction scrims with
  | nil => rfl
  | cons a l ih =>
    have ha := h a (List.mem_cons_self a l)
    have hl := ih fun r hr => h r (List.mem_cons_of_mem a hr)
    simp only [acceptUpdateTable, List.map_cons, ha, Bool.false_eq_true,
      if_false] at hl ⊢
    simp [hl]

theorem acceptCore_no_match (scrims : List ScrimSlot)
    (myTeamId scrimId now : String)
    (h : ∀ r ∈ scrims, acceptMatches scrimId r = false) :
    acceptCore false scrims myTeamId scrimId now
      = (scrims, AcceptOutcome.alreadyTaken) := by
  have hf : scrims.filter (acceptMatches scrimId) = [] :=
    List.filter_eq_nil_iff.mpr (by simpa using h)
  simp [acceptCore, acceptUpdatedRows, hf, maybeSingleId,
    acceptUpdateTable_no_match scrims scrimId myTeamId now h]

theorem filter_acceptMatches_singleton (scrims : List ScrimSlot)
    (scrimId : String) (s : ScrimSlot)
    (hids : (scrims.map ScrimSlot.id).Nodup)
    (hmem : s ∈ scrims) (hs : acceptMatches scrimId s = true) :
    scrims.filter (acceptMatches scrimId) = [s] := by
  have hsid : s.id = scrimId := ((acceptMatches_iff scrimId s).mp hs).1
  induction scrims with
  | nil => cases hmem
  | cons a l ih =>
    rw [List.map_cons, List.nodup_cons] at hids
    rcases List.mem_cons.mp hmem with rfl | hmem'
    · have hl : l.filter (acceptMatches scrimId) = [] := by
        refine List.filter_eq_nil_iff.mpr fun r hr hmr => ?_
        have hrid : r.id = scrimId := ((acceptMatches_iff scrimId r).mp hmr).1
        have hrmem : r.id ∈ l.map ScrimSlot.id := List.mem_map_of_mem ScrimSlot.id hr
        rw [hrid, ← hsid] at hrmem
        exact hids.1 hrmem
      simp [List.filter_cons, hs, hl]
    · have ha : acceptMatches scrimId a = false := by
        by_contra hcon
        rw [Bool.not_eq_false] at hcon
        have haid : a.id = scrimId := ((acceptMatches_iff scrimId a).mp hcon).1
        exact hids.1 (by
          have : s.id ∈ l.map ScrimSlot.id := List.mem_map_of_mem ScrimSlot.id hmem'
          rwa [hsid, ← haid] at this)
      simp only [List.filter_cons, ha, Bool.false_eq_true, if_false]
      exact ih hids.2 hmem'

theorem acceptCore_match (scrims : List ScrimSlot)
    (myTeamId scrimId now : String) (s : ScrimSlot)
    (hids : (scrims.map ScrimSlot.id).Nodup)
    (hmem : s ∈ scrims) (hs : acceptMatches scrimId s = true) :
    acceptCore false scrims myTeamId scrimId now
      = (acceptUpdateTable scrims scrimId myTeamId now,
         AcceptOutcome.success scrimId) := by
  have hf := filter_acceptMatches_singleton scrims scrimId s hids hmem hs
  have hsid : s.id = scrimId := ((acceptMatches_iff scrimId s).mp hs).1
  simp [acceptCore, acceptUpdatedRows, hf, maybeSingleId, acceptApply, hsid]

theorem no_match_after_update (scrims : List ScrimSlot)
    (scrimId myTeamId now : String) :
    ∀ r ∈ acceptUpdateTable scrims scrimId myTeamId now,
      acceptMatches scrimId r = false := by
  intro r hr
  rw [acceptUpdateTable, List.mem_map] at hr
  obtain ⟨a, _, rfl⟩ := hr
  by_cases h : acceptMatches scrimId a = true
  · simp [h, acceptMatches_acceptApply]
  · rw [Bool.not_eq_true] at h
    simp [h]

theorem acceptOpenScrim_fst (fault : Bool) (scrims : List ScrimSlot)
    (myTeamId : Option String) (scrimId now : String) :
    (acceptOpenScrim fault scrims myTeamId scrimId now).1 = scrims ∨
    ∃ t, myTeamId = some t ∧
      (acceptOpenScrim fault scrims myTeamId scrimId now).1
        = acceptUpdateTable scrims scrimId t now := by
  cases myTeamId with
  | none => exact Or.inl rfl
  | some t =>
    cases fault with
    | true => exact Or.inl rfl
    | false =>
      refine Or.inr ⟨t, rfl, ?_⟩
      show (acceptCore false scrims t scrimId now).1 = _
      rw [acceptCore]
      cases maybeSingleId (acceptUpdatedRows scrims scrimId t now) with
      | error e => rfl
      | ok o => cases o with
        | none => rfl
        | some i => rfl

theorem acceptOpenScrim_false_some_fst (scrims : List ScrimSlot)
    (myTeamId scrimId now : String) :
    (acceptOpenScrim false scrims (some myTeamId) scrimId now).1
      = acceptUpdateTable scrims scrimId myTeamId now := by
  show (acceptCore false scrims myTeamId scrimId now).1 = _
  rw [acceptCore]
  cases maybeSingleId (acceptUpdatedRows scrims scrimId myTeamId now) with
  | error e => rfl
  | ok o => cases o with
    | none => rfl
    | some i => rfl

theorem filter_acceptMatches_nil_or_singleton (scrims : List ScrimSlot)
    (scrimId : String) (hids : (scrims.map ScrimSlot.id).Nodup) :
    scrims.filter (acceptMatches scrimId) = [] ∨
    ∃ s, s ∈ scrims ∧ acceptMatches scrimId s = true ∧
      scrims.filter (acceptMatches scrimId) = [s] := by
  cases hf : scrims.filter (acceptMatches scrimId) with
  | nil => exact Or.inl rfl
  | cons s tl =>
    have hsmem : s ∈ scrims.filter (acceptMatches scrimId) := by
      rw [hf]; exact List.mem_cons_self s tl
    have hs := List.mem_filter.mp hsmem
    have hsing := filter_acceptMatches_singleton scrims scrimId s hids hs.1 hs.2
    rw [hf] at hsing
    exact Or.inr ⟨s, hs.1, hs.2, hsing⟩

theorem changedRows_acceptUpdateTable (scrims : List ScrimSlot)
    (scrimId myTeamId now : String) :
    changedRows scrims (acceptUpdateTable scrims scrimId myTeamId now)
      = (scrims.filter (acceptMatches scrimId)).length := by
  induction scrims with
  | nil => rfl
  | cons a l ih =>
    by_cases h : acceptMatches scrimId a = true
    · have hne : (a != acceptApply myTeamId now a) = true := by
        refine bne_iff_ne.mpr fun heq => ?_
        have hst : a.status = "open" := ((acceptMatches_iff scrimId a).mp h).2.1
        have := congrArg ScrimSlot.status heq
        rw [hst] at this
        simp [acceptApply] at this
      simp [changedRows, acceptUpdateTable, List.filter_cons, h, hne] at ih ⊢
      exact ih
    · rw [Bool.not_eq_true] at h
      simp [changedRows, acceptUpdateTable, List.filter_cons, h] at ih ⊢
      exact ih

theorem updateTable_claims (scrims : List ScrimSlot)
    (scrimId myTeamId now : String) (s : ScrimSlot)
    (hids : (scrims.map ScrimSlot.id).Nodup)
    (hmem : s ∈ scrims) (hs : acceptMatches scrimId s = true) :
    ∀ r ∈ acceptUpdateTable scrims scrimId myTeamId now, r.id = scrimId →
      r.status = "confirmed" ∧ r.opponent_team_id = some myTeamId := by
  intro r hr hrid
  rw [acceptUpdateTable, List.mem_map] at hr
  obtain ⟨a, ha, rfl⟩ := hr
  by_cases hma : acceptMatches scrimId a = true
  · simp [hma, acceptApply]
  · exfalso
    rw [Bool.not_eq_true] at hma
    rw [hma] at hrid
    simp only [Bool.false_eq_true, if_false] at hrid
    have hsid : s.id = scrimId := ((acceptMatches_iff scrimId s).mp hs).1
    have : a = s :=
      List.inj_on_of_nodup_map hids ha hmem (by rw [hrid, hsid])
    rw [this, hs] at hma
    exact Bool.true_eq_false.mp hma

theorem claimedBy_update (scrimId winner : String) (scrims : List ScrimSlot)
    (scrimId' myTeamId' now' : String)
    (h : claimedBy scrimId winner scrims) :
    claimedBy scrimId winner (acceptUpdateTable scrims scrimId' myTeamId' now') := by
  obtain ⟨h1, h2⟩ := h
  constructor
  · intro r hr
    rw [acceptUpdateTable, List.mem_map] at hr
    obtain ⟨a, ha, rfl⟩ := hr
    by_cases hma : acceptMatches scrimId' a = true
    · simp [hma, acceptMatches_acceptApply]
    · rw [Bool.not_eq_true] at hma
      simp only [hma, Bool.false_eq_true, if_false]
      exact h1 a ha
  · intro r hr hrid
    rw [acceptUpdateTable, List.mem_map] at hr
    obtain ⟨a, ha, rfl⟩ := hr
    by_cases hma : acceptMatches scrimId' a = true
    · exfalso
      rw [hma] at hrid
      simp only [if_true] at hrid
      have haid : a.id = scrimId := by
        simpa [acceptApply] using hrid
      obtain ⟨-, hst, hop⟩ := (acceptMatches_iff scrimId' a).mp hma
      have : acceptMatches scrimId a = true :=
        (acceptMatches_iff scrimId a).mpr ⟨haid, hst, hop⟩
      rw [h1 a ha] at this
      exact Bool.false_ne_true this
    · rw [Bool.not_eq_true] at hma
      simp only [hma, Bool.false_eq_true, if_false] at hrid ⊢
      exact h2 a ha hrid

theorem claimedBy_accept (scrimId winner : String) (scrims : List ScrimSlot)
    (fault : Bool) (myTeamId : Option String) (scrimId' now' : String)
    (h : claimedBy scrimId winner scrims) :
    claimedBy scrimId winner
      (acceptOpenScrim fault scrims myTeamId scrimId' now').1 := by
  rcases acceptOpenScrim_fst fault scrims myTeamId scrimId' now' with hf | ⟨t, -, hf⟩
  · rwa [hf]
  · rw [hf]
    exact claimedBy_update scrimId winner scrims scrimId' t now' h

theorem claimedBy_runCalls (scrimId winner : String) (calls : List AcceptCall)
    (scrims : List ScrimSlot) (h : claimedBy scrimId winner scrims) :
    claimedBy scrimId winner (runCalls calls scrims) := by
  induction calls generalizing scrims with
  | nil => exact h
  | cons c cs ih =>
    exact ih _ (claimedBy_accept scrimId winner scrims c.fault c.myTeamId
      c.scrimId c.now h)

theorem runAccepts_no_match (scrimId now : String) (scrims : List ScrimSlot)
    (teams : List String)
    (h : ∀ r ∈ scrims, acceptMatches scrimId r = false) :
    runAccepts scrimId now scrims teams
      = (scrims, teams.map fun _ => AcceptOutcome.alreadyTaken) := by
  induction teams with
  | nil => rfl
  | cons t ts ih =>
    have h1 : acceptOpenScrim false scrims (some t) scrimId now
        = (scrims, AcceptOutcome.alreadyTaken) :=
      acceptCore_no_match scrims t scrimId now h
    simp [runAccepts, h1, ih]

theorem mem_zip_self {α : Type} {l : List α} {p : α × α}
    (hp : p ∈ l.zip l) : p.2 = p.1 := by
  induction l with
  | nil => cases hp
  | cons a l ih =>
    rw [List.zip_cons_cons] at hp
    rcases List.mem_cons.mp hp with rfl | h
    · rfl
    · exact ih h

theorem mem_zip_map {α : Type} {f : α → α} {l : List α} {p : α × α}
    (hp : p ∈ l.zip (l.map f)) : p.2 = f p.1 := by
  induction l with
  | nil => cases hp
  | cons a l ih =>
    rw [List.map_cons, List.zip_cons_cons] at hp
    rcases List.mem_cons.mp hp with rfl | h
    · rfl
    · exact ih h

/-! ## Claims -/

/-- C10: whenever the caller's claiming team identifier is null/absent,
both accept entry points return early with no store write: the scrims
table is returned unchanged and the outcome is the early-return outcome,
for any fault state of the store.  (`doAcceptOpen` also returns early when
the route's scrim id is absent.) -/
theorem accept_missing_team_no_write (fault : Bool) (scrims : List ScrimSlot)
    (scrimId : Option String) (sid now : String) :
    acceptOpenScrim fault scrims none sid now
      = (scrims, AcceptOutcome.noTeam) ∧
    doAcceptOpen fault scrims scrimId none now
      = (scrims, AcceptOutcome.noTeam) ∧
    doAcceptOpen fault scrims none (some sid) now
      = (scrims, AcceptOutcome.noTeam) := by
  refine ⟨rfl, ?_, rfl⟩
  cases scrimId <;> rfl

/-- C4: when the conditional predicate matches zero rows — every row
carrying the target id is not open or already has an opponent, covering
"already claimed", "already cancelled" and "never existed" — the accept
call returns the explicit already-taken outcome with the table unchanged
rather than raising, while a genuine store failure surfaces as the
distinct storeError outcome. -/
theorem accept_zero_rows_signalled (scrims : List ScrimSlot)
    (myTeamId scrimId now : String)
    (h : ∀ r ∈ scrims, r.id = scrimId →
      r.status ≠ "open" ∨ r.opponent_team_id ≠ none) :
    acceptOpenScrim false scrims (some myTeamId) scrimId now
      = (scrims, AcceptOutcome.alreadyTaken) ∧
    acceptOpenScrim true scrims (some myTeamId) scrimId now
      = (scrims, AcceptOutcome.storeError) ∧
    AcceptOutcome.alreadyTaken ≠ AcceptOutcome.storeError := by
  have hno : ∀ r ∈ scrims, acceptMatches scrimId r = false := by
    intro r hr
    rw [Bool.eq_false_iff]
    intro hm
    obtain ⟨hid, hst, hop⟩ := (acceptMatches_iff scrimId r).mp hm
    rcases h r hr hid with h1 | h1
    exacts [h1 hst, h1 hop]
  exact ⟨acceptCore_no_match scrims myTeamId scrimId now hno, rfl, by decide⟩

/-- C4 witness at a store whose only row with the target id is already
confirmed with an opponent. -/
theorem accept_zero_rows_signalled_witness :
    acceptOpenScrim false [claimedSlot] (some "teamC") "s1" "t1"
      = ([claimedSlot], AcceptOutcome.alreadyTaken) ∧
    acceptOpenScrim true [claimedSlot] (some "teamC") "s1" "t1"
      = ([claimedSlot], AcceptOutcome.storeError) ∧
    AcceptOutcome.alreadyTaken ≠ AcceptOutcome.storeError :=
  accept_zero_rows_signalled [claimedSlot] "teamC" "s1" "t1" (by decide)

/-- C9: frame condition — any accept call preserves the table's length and
every row's id, host team, scheduling window, time zone, region and notes;
a row that does not satisfy the conditional predicate is left entirely
unchanged, so no other slot row is written. -/
theorem accept_frame_condition (fault : Bool) (scrims : List ScrimSlot)
    (myTeamId : Option String) (scrimId now : String) :
    ((acceptOpenScrim fault scrims myTeamId scrimId now).1).length
      = scrims.length ∧
    ∀ p ∈ scrims.zip (acceptOpenScrim fault scrims myTeamId scrimId now).1,
      p.2.id = p.1.id ∧ p.2.host_team_id = p.1.host_team_id ∧
      p.2.start_time = p.1.start_time ∧ p.2.end_time = p.1.end_time ∧
      p.2.time_zone = p.1.time_zone ∧ p.2.region = p.1.region ∧
      p.2.notes = p.1.notes ∧
      (acceptMatches scrimId p.1 = false → p.2 = p.1) := by
  rcases acceptOpenScrim_fst fault scrims myTeamId scrimId now with hf | ⟨t, -, hf⟩
  · rw [hf]
    refine ⟨rfl, fun p hp => ?_⟩
    rw [mem_zip_self hp]
    exact ⟨rfl, rfl, rfl, rfl, rfl, rfl, rfl, fun _ => rfl⟩
  · rw [hf]
    refine ⟨by simp [acceptUpdateTable], fun p hp => ?_⟩
    rw [acceptUpdateTable] at hp
    rw [mem_zip_map hp]
    by_cases hm : acceptMatches scrimId p.1 = true
    · simp [hm, acceptApply]
    · rw [Bool.not_eq_true] at hm
      simp [hm]

/-- C3 counterexample: the Create Scrim screen inserts
`status = 'open'` together with `opponent_team_id = invitedTeam.id`, and a
subsequent (failing) accept call leaves that row open with a non-null
opponent — so "never status=open with a non-null opponentTeamId after any
call" is false on the code. -/
theorem accept_partial_state_counterexample :
    (acceptOpenScrim false
        [createScrimPayload "s1" "hostT" (some "invitedT") "eu"
          "2026-01-01T10:00:00Z" "2026-01-01T11:00:00Z" "UTC" none "t0"]
        (some "teamB") "s1" "t1").2 = AcceptOutcome.alreadyTaken ∧
    ∃ r ∈ (acceptOpenScrim false
        [createScrimPayload "s1" "hostT" (some "invitedT") "eu"
          "2026-01-01T10:00:00Z" "2026-01-01T11:00:00Z" "UTC" none "t0"]
        (some "teamB") "s1" "t1").1,
      r.status = "open" ∧ r.opponent_team_id ≠ none := by decide

/-- C3 amended: the acceptance path itself preserves mutual consistency —
if every row of the table is consistent (never confirmed with a null
opponent, never open with a non-null opponent) before an accept call, then
every row is consistent after it; rows the call writes are always
confirmed with a non-null opponent.  Unqualified over all reachable
states, the claim fails: slot creation with an invited team produces
status=open with a non-null opponent. -/
theorem accept_preserves_consistency (fault : Bool) (scrims : List ScrimSlot)
    (myTeamId : Option String) (scrimId now : String)
    (hcons : ∀ r ∈ scrims, consistent r = true) :
    ∀ r ∈ (acceptOpenScrim fault scrims myTeamId scrimId now).1,
      consistent r = true := by
  rcases acceptOpenScrim_fst fault scrims myTeamId scrimId now with hf | ⟨t, -, hf⟩
  · rw [hf]; exact hcons
  · rw [hf]
    intro r hr
    rw [acceptUpdateTable, List.mem_map] at hr
    obtain ⟨a, ha, rfl⟩ := hr
    by_cases hm : acceptMatches scrimId a = true
    · simp [hm, consistent, acceptApply]
    · rw [Bool.not_eq_true] at hm
      simp only [hm, Bool.false_eq_true, if_false]
      exact hcons a ha

/-- C3 amended witness: a consistent one-row table stays consistent
through a successful accept — the written row is still consistent. -/
theorem accept_preserves_consistency_witness :
    consistent wonSlot = true :=
  accept_preserves_consistency false [sampleSlot] (some "teamB") "s1" "t1"
    (by decide) wonSlot (by decide)

/-- C7 counterexample: the store-level accept operation does not reject a
self-claim — the host of an open, unclaimed slot can claim it, the call
succeeds, and the row ends with `host_team_id = opponent_team_id`. -/
theorem self_claim_not_rejected_counterexample :
    (acceptOpenScrim false [sampleSlot] (some "teamA") "s1" "t1").2
      = AcceptOutcome.success "s1" ∧
    ∃ r ∈ (acceptOpenScrim false [sampleSlot] (some "teamA") "s1" "t1").1,
      r.host_team_id = "teamA" ∧ r.opponent_team_id = some "teamA" := by decide

/-- C7 amended: self-claim rejection is enforced only in the UI layer, not
by the store operation: the Scrim Details accept-button predicate
`canAcceptOpen` is false whenever the viewer's team hosts the slot, and
the viewer's own slots never appear in the Available Scrims list built by
`filteredOpen`. -/
theorem self_claim_rejected_in_ui (s : ScrimSlot) (t : String)
    (l : List ScrimSlot) (hhost : s.host_team_id = t) :
    canAcceptOpen (some s) (some t) = false ∧
    s ∉ filteredOpen l (some t) := by
  constructor
  · simp [canAcceptOpen, isHostTeam, hhost]
  · intro hmem
    have hpred := (List.mem_filter.mp hmem).2
    simp [hhost] at hpred

/-- C7 amended witness: the host's own open slot is neither acceptable in
the details screen nor listed among available scrims. -/
theorem self_claim_rejected_in_ui_witness :
    canAcceptOpen (some sampleSlot) (some "teamA") = false ∧
    sampleSlot ∉ filteredOpen [sampleSlot] (some "teamA") :=
  self_claim_rejected_in_ui sampleSlot "teamA" [sampleSlot] (by decide)

/-- C2: the acceptance operation is a single atomic conditional write —
row-wise, the posted table rewrites exactly those rows that satisfy
`id = scrimId ∧ status = 'open' ∧ opponent_team_id = null` at write time,
setting `status = 'confirmed'`, `opponent_team_id = claimingTeamId` and
`updated_at = now`; and, under unique row ids, the call succeeds iff such
a row existed at write time.  The guard is the write's own condition on
the current table state, not a separate earlier read. -/
theorem accept_single_conditional_write (scrims : List ScrimSlot)
    (myTeamId scrimId now : String)
    (hids : (scrims.map ScrimSlot.id).Nodup) :
    (∀ p ∈ scrims.zip
        (acceptOpenScrim false scrims (some myTeamId) scrimId now).1,
      p.2 = if p.1.id = scrimId ∧ p.1.status = "open" ∧
              p.1.opponent_team_id = none
        then { p.1 with status := "confirmed", opponent_team_id := some myTeamId, updated_at := now }
        else p.1) ∧
    ((∃ i, (acceptOpenScrim false scrims (some myTeamId) scrimId now).2
        = AcceptOutcome.success i) ↔
      ∃ r ∈ scrims, r.id = scrimId ∧ r.status = "open" ∧
        r.opponent_team_id = none) := by
  constructor
  · intro p hp
    rw [acceptOpenScrim_false_some_fst, acceptUpdateTable] at hp
    rw [mem_zip_map hp]
    by_cases hm : acceptMatches scrimId p.1 = true
    · rw [if_pos ((acceptMatches_iff scrimId p.1).mp hm)]
      simp only [hm, if_true]
      rfl
    · rw [Bool.not_eq_true] at hm
      have hprop : ¬(p.1.id = scrimId ∧ p.1.status = "open" ∧
          p.1.opponent_team_id = none) := by
        intro hc
        rw [(acceptMatches_iff scrimId p.1).mpr hc] at hm
        cases hm
      rw [if_neg hprop]
      simp only [hm, Bool.false_eq_true, if_false]
  · constructor
    · rintro ⟨i, hi⟩
      rcases filter_acceptMatches_nil_or_singleton scrims scrimId hids with
        hf | ⟨s, hmem, hs, hf⟩
      · have hno : ∀ r ∈ scrims, acceptMatches scrimId r = false := by
          intro r hr
          have := List.filter_eq_nil_iff.mp hf r hr
          rwa [Bool.not_eq_true] at this
        rw [show acceptOpenScrim false scrims (some myTeamId) scrimId now
            = (scrims, AcceptOutcome.alreadyTaken) from
          acceptCore_no_match scrims myTeamId scrimId now hno] at hi
        simp at hi
      · obtain ⟨hid, hst, hop⟩ := (acceptMatches_iff scrimId s).mp hs
        exact ⟨s, hmem, hid, hst, hop⟩
    · rintro ⟨r, hr, hid, hst, hop⟩
      refine ⟨scrimId, ?_⟩
      rw [show acceptOpenScrim false scrims (some myTeamId) scrimId now
          = (acceptUpdateTable scrims scrimId myTeamId now,
             AcceptOutcome.success scrimId) from
        acceptCore_match scrims myTeamId scrimId now r hids hr
          ((acceptMatches_iff scrimId r).mpr ⟨hid, hst, hop⟩)]

/-- C2 witness at a one-row table holding the open sample slot. -/
theorem accept_single_conditional_write_witness :
    (∀ p ∈ [sampleSlot].zip
        (acceptOpenScrim false [sampleSlot] (some "teamB") "s1" "t1").1,
      p.2 = if p.1.id = "s1" ∧ p.1.status = "open" ∧
              p.1.opponent_team_id = none
        then { p.1 with status := "confirmed", opponent_team_id := some "teamB", updated_at := "t1" }
        else p.1) ∧
    ((∃ i, (acceptOpenScrim false [sampleSlot] (some "teamB") "s1" "t1").2
        = AcceptOutcome.success i) ↔
      ∃ r ∈ [sampleSlot], r.id = "s1" ∧ r.status = "open" ∧
        r.opponent_team_id = none) :=
  accept_single_conditional_write [sampleSlot] "teamB" "s1" "t1" (by decide)

/-- C5: side effects — under unique row ids, a successful accept call
rewrites exactly one row of the table, and any non-successful call
(already taken, missing team, or store error) returns the table exactly as
it was: zero writes, no observable partial state. -/
theorem accept_write_effects (fault : Bool) (scrims : List ScrimSlot)
    (myTeamId : Option String) (scrimId now : String)
    (hids : (scrims.map ScrimSlot.id).Nodup) :
    (isSuccess (acceptOpenScrim fault scrims myTeamId scrimId now).2 = true →
      changedRows scrims
        (acceptOpenScrim fault scrims myTeamId scrimId now).1 = 1) ∧
    (isSuccess (acceptOpenScrim fault scrims myTeamId scrimId now).2 = false →
      (acceptOpenScrim fault scrims myTeamId scrimId now).1 = scrims) := by
  cases myTeamId with
  | none =>
    exact ⟨fun h => by simp [acceptOpenScrim, isSuccess] at h, fun _ => rfl⟩
  | some t =>
    cases fault with
    | true =>
      exact ⟨fun h => by simp [acceptOpenScrim, acceptCore, isSuccess] at h,
             fun _ => rfl⟩
    | false =>
      rcases filter_acceptMatches_nil_or_singleton scrims scrimId hids with
        hf | ⟨s, hmem, hs, hf⟩
      · have hno : ∀ r ∈ scrims, acceptMatches scrimId r = false := by
          intro r hr
          have := List.filter_eq_nil_iff.mp hf r hr
          rwa [Bool.not_eq_true] at this
        rw [show acceptOpenScrim false scrims (some t) scrimId now
            = (scrims, AcceptOutcome.alreadyTaken) from
          acceptCore_no_match scrims t scrimId now hno]
        exact ⟨fun h => by simp [isSuccess] at h, fun _ => rfl⟩
      · rw [show acceptOpenScrim false scrims (some t) scrimId now
            = (acceptUpdateTable scrims scrimId t now,
               AcceptOutcome.success scrimId) from
          acceptCore_match scrims t scrimId now s hids hmem hs]
        refine ⟨fun _ => ?_, fun h => by simp [isSuccess] at h⟩
        show changedRows scrims (acceptUpdateTable scrims scrimId t now) = 1
        rw [changedRows_acceptUpdateTable, hf]
        rfl

/-- C5 witness: one-row table, successful claim rewrites exactly one row. -/
theorem accept_write_effects_witness :
    (isSuccess (acceptOpenScrim false [sampleSlot] (some "teamB") "s1" "t1").2
        = true →
      changedRows [sampleSlot]
        (acceptOpenScrim false [sampleSlot] (some "teamB") "s1" "t1").1 = 1) ∧
    (isSuccess (acceptOpenScrim false [sampleSlot] (some "teamB") "s1" "t1").2
        = false →
      (acceptOpenScrim false [sampleSlot] (some "teamB") "s1" "t1").1
        = [sampleSlot]) :=
  accept_write_effects false [sampleSlot] (some "teamB") "s1" "t1" (by decide)

/-- C8 counterexample: the success value of the operation is only the
slot's id, not the full post-update row — two tables whose rows differ in
`host_team_id` produce identical success results, while the spec-modelled
operation returning the full row produces different results. -/
theorem accept_returns_row_counterexample :
    (acceptOpenScrim false [sampleSlot] (some "teamB") "s1" "t1").2
      = (acceptOpenScrim false [sampleSlotHostC] (some "teamB") "s1" "t1").2 ∧
    isSuccess (acceptOpenScrim false [sampleSlot] (some "teamB") "s1" "t1").2
      = true ∧
    sampleSlot.host_team_id ≠ sampleSlotHostC.host_team_id ∧
    (acceptOpenSlotSpecRow [sampleSlot] "teamB" "s1" "t1").2
      ≠ (acceptOpenSlotSpecRow [sampleSlotHostC] "teamB" "s1" "t1").2 := by
  decide

/-- C8 amended: on success the operation returns only the updated slot's
id — always exactly the requested scrimId — not the full row; the
confirmed row itself is found by re-reading the posted table, where it
carries the claimant as opponent. -/
theorem accept_success_returns_id (fault : Bool) (scrims : List ScrimSlot)
    (myTeamId : Option String) (scrimId now i : String)
    (h : (acceptOpenScrim fault scrims myTeamId scrimId now).2
      = AcceptOutcome.success i) :
    i = scrimId ∧ ∃ t, myTeamId = some t ∧
      ∃ r ∈ (acceptOpenScrim fault scrims myTeamId scrimId now).1,
        r.id = scrimId ∧ r.status = "confirmed" ∧
        r.opponent_team_id = some t := by
  cases myTeamId with
  | none => simp [acceptOpenScrim] at h
  | some t =>
    cases fault with
    | true => simp [acceptOpenScrim, acceptCore] at h
    | false =>
      have h' : (acceptCore false scrims t scrimId now).2
          = AcceptOutcome.success i := h
      rw [acceptCore] at h'
      cases hf : acceptUpdatedRows scrims scrimId t now with
      | nil =>
        rw [hf] at h'
        simp [maybeSingleId] at h'
      | cons r0 tl =>
        cases tl with
        | cons r1 tl' =>
          rw [hf] at h'
          simp [maybeSingleId] at h'
        | nil =>
          rw [hf] at h'
          simp only [maybeSingleId, Bool.false_eq_true, if_false] at h'
          have hi : r0.id = i := by
            simpa [AcceptOutcome.success.injEq] using h'
          have hr0 : r0 ∈ (scrims.filter (acceptMatches scrimId)).map
              (acceptApply t now) := by
            rw [show (scrims.filter (acceptMatches scrimId)).map
                (acceptApply t now) = acceptUpdatedRows scrims scrimId t now
              from rfl, hf]
            exact List.mem_cons_self r0 []
          obtain ⟨a, hafil, happ⟩ := List.mem_map.mp hr0
          have hamem := (List.mem_filter.mp hafil).1
          have hamatch := (List.mem_filter.mp hafil).2
          have haid : a.id = scrimId :=
            ((acceptMatches_iff scrimId a).mp hamatch).1
          refine ⟨?_, t, rfl, ?_⟩
          · rw [← hi, ← happ]
            show a.id = scrimId
            exact haid
          · refine ⟨r0, ?_, ?_, ?_, ?_⟩
            · rw [acceptOpenScrim_false_some_fst, acceptUpdateTable]
              exact List.mem_map.mpr ⟨a, hamem, by rw [hamatch]; simp [happ]⟩
            · rw [← happ]
              show a.id = scrimId
              exact haid
            · rw [← happ]; rfl
            · rw [← happ]; rfl

/-- C8 amended witness: the concrete success value is the requested id. -/
theorem accept_success_returns_id_witness :
    "s1" = "s1" ∧ ∃ t, (some "teamB" : Option String) = some t ∧
      ∃ r ∈ (acceptOpenScrim false [sampleSlot] (some "teamB") "s1" "t1").1,
        r.id = "s1" ∧ r.status = "confirmed" ∧
        r.opponent_team_id = some t :=
  accept_success_returns_id false [sampleSlot] (some "teamB") "s1" "t1" "s1"
    (by decide)

/-- C1: mutual exclusion — from a table with unique row ids containing the
target slot open and unclaimed, serializing any nonempty sequence of
accept attempts by distinct teams yields success for exactly the first
attempt and alreadyTaken for every later one, and the final table records
the first team as the slot's only opponent. -/
theorem accept_mutual_exclusion (scrims : List ScrimSlot) (s : ScrimSlot)
    (scrimId now : String) (t : String) (ts : List String)
    (hids : (scrims.map ScrimSlot.id).Nodup)
    (_hdistinct : (t :: ts).Nodup)
    (hmem : s ∈ scrims) (hid : s.id = scrimId)
    (hopen : s.status = "open") (hnone : s.opponent_team_id = none) :
    (runAccepts scrimId now scrims (t :: ts)).2
      = AcceptOutcome.success scrimId
          :: ts.map (fun _ => AcceptOutcome.alreadyTaken) ∧
    (((runAccepts scrimId now scrims (t :: ts)).2).filter isSuccess).length
      = 1 ∧
    ∀ r ∈ (runAccepts scrimId now scrims (t :: ts)).1, r.id = scrimId →
      r.status = "confirmed" ∧ r.opponent_team_id = some t := by
  have hs : acceptMatches scrimId s = true :=
    (acceptMatches_iff scrimId s).mpr ⟨hid, hopen, hnone⟩
  have hfirst : acceptOpenScrim false scrims (some t) scrimId now
      = (acceptUpdateTable scrims scrimId t now,
         AcceptOutcome.success scrimId) :=
    acceptCore_match scrims t scrimId now s hids hmem hs
  have hrest := runAccepts_no_match scrimId now
    (acceptUpdateTable scrims scrimId t now) ts
    (no_match_after_update scrims scrimId t now)
  have hrun : runAccepts scrimId now scrims (t :: ts)
      = (acceptUpdateTable scrims scrimId t now,
         AcceptOutcome.success scrimId
           :: ts.map fun _ => AcceptOutcome.alreadyTaken) := by
    simp [runAccepts, hfirst, hrest]
  refine ⟨by rw [hrun], ?_, ?_⟩
  · rw [hrun]
    have htail :
        ((ts.map fun _ => AcceptOutcome.alreadyTaken).filter isSuccess) = [] := by
      refine List.filter_eq_nil_iff.mpr fun o ho => ?_
      obtain ⟨x, -, rfl⟩ := List.mem_map.mp ho
      simp [isSuccess]
    show ((AcceptOutcome.success scrimId
        :: ts.map fun _ => AcceptOutcome.alreadyTaken).filter isSuccess).length = 1
    rw [List.filter_cons, if_pos (by simp [isSuccess]), htail]
    rfl
  · rw [hrun]
    exact updateTable_claims scrims scrimId t now s hids hmem hs

/-- C1 witness: one open slot, two distinct teams serialized — the first
wins, the second is told the slot is already taken. -/
theorem accept_mutual_exclusion_witness :
    (runAccepts "s1" "t1" [sampleSlot] ("teamB" :: ["teamC"])).2
      = AcceptOutcome.success "s1"
          :: ["teamC"].map (fun _ => AcceptOutcome.alreadyTaken) ∧
    (((runAccepts "s1" "t1" [sampleSlot] ("teamB" :: ["teamC"])).2).filter
        isSuccess).length = 1 ∧
    ∀ r ∈ (runAccepts "s1" "t1" [sampleSlot] ("teamB" :: ["teamC"])).1,
      r.id = "s1" →
        r.status = "confirmed" ∧ r.opponent_team_id = some "teamB" :=
  accept_mutual_exclusion [sampleSlot] sampleSlot "s1" "t1" "teamB" ["teamC"]
    (by decide) (by decide) (by decide) (by decide) (by decide) (by decide)

/-- C6: retry safety — once an accept call has succeeded on the slot,
every later accept call targeting that slot, issued after any sequence of
further accept traffic on the store, returns alreadyTaken, returns the
table exactly unchanged, and the slot still records the first winner as
its opponent: no double-confirmation, no overwrite. -/
theorem accept_retry_safe (scrims store1 : List ScrimSlot)
    (teamId scrimId now i : String)
    (hids : (scrims.map ScrimSlot.id).Nodup)
    (h : acceptOpenScrim false scrims (some teamId) scrimId now
      = (store1, AcceptOutcome.success i))
    (calls : List AcceptCall) (teamId' now' : String) :
    acceptOpenScrim false (runCalls calls store1) (some teamId') scrimId now'
      = (runCalls calls store1, AcceptOutcome.alreadyTaken) ∧
    ∀ r ∈ runCalls calls store1, r.id = scrimId →
      r.status = "confirmed" ∧ r.opponent_team_id = some teamId := by
  have hclaim1 : claimedBy scrimId teamId store1 := by
    rcases filter_acceptMatches_nil_or_singleton scrims scrimId hids with
      hf | ⟨s, hmem, hs, hf⟩
    · exfalso
      have hno : ∀ r ∈ scrims, acceptMatches scrimId r = false := by
        intro r hr
        have := List.filter_eq_nil_iff.mp hf r hr
        rwa [Bool.not_eq_true] at this
      have hcontr :=
        (acceptCore_no_match scrims teamId scrimId now hno).symm.trans h
      simp [Prod.ext_iff] at hcontr
    · have heq :=
        (acceptCore_match scrims teamId scrimId now s hids hmem hs).symm.trans h
      obtain ⟨h1, -⟩ := Prod.mk.injEq _ _ _ _ ▸ heq
      rw [← h1]
      exact ⟨no_match_after_update scrims scrimId teamId now,
             updateTable_claims scrims scrimId teamId now s hids hmem hs⟩
  have hclaim2 := claimedBy_runCalls scrimId teamId calls store1 hclaim1
  exact ⟨acceptCore_no_match (runCalls calls store1) teamId' scrimId now'
    hclaim2.1, hclaim2.2⟩

/-- C6 witness: after team B wins the sample slot and team D also retries,
a later attempt by team C returns alreadyTaken and the winner stands. -/
theorem accept_retry_safe_witness :
    acceptOpenScrim false
        (runCalls [{ fault := false, myTeamId := some "teamD",
                     scrimId := "s1", now := "t3" }] [wonSlot])
        (some "teamC") "s1" "t2"
      = (runCalls [{ fault := false, myTeamId := some "teamD",
                     scrimId := "s1", now := "t3" }] [wonSlot],
         AcceptOutcome.alreadyTaken) ∧
    ∀ r ∈ runCalls [{ fault := false, myTeamId := some "teamD",
                      scrimId := "s1", now := "t3" }] [wonSlot],
      r.id = "s1" →
        r.status = "confirmed" ∧ r.opponent_team_id = some "teamB" :=
  accept_retry_safe [sampleSlot] [wonSlot] "teamB" "s1" "t1" "s1"
    (by decide) (by decide)
    [{ fault := false, myTeamId := some "teamD", scrimId := "s1",
       now := "t3" }] "teamC" "t2"

end ScrimApp
